import Mathlib

/-!
Shallow embedding of `src/extension/popup.js`: the click handler of the
extension popup.  The handler reads the notes field, writes a processing
placeholder to the results region, sends one POST request, and renders the
response (table / empty message / fixed error message).

JavaScript values reachable from a parsed JSON body are modelled by `JsVal`
(numbers as `Int`: the script never computes with numbers, it only compares
`items.length === 0` and stringifies values).  Property access that throws a
`TypeError` in JS (access on `null`/`undefined`, calling a non-function) is
modelled with `Except Unit`.  The DOM is a record of the two elements the
script touches plus an opaque rest; every observable action of the handler is
recorded in an event trace.
-/

/-- A JavaScript value, as reachable from `JSON.parse`, plus `undefined`
(which arises from reading an absent property). -/
inductive JsVal where
  | str (s : String)
  | num (n : Int)
  | bool (b : Bool)
  | null
  | undefined
  | arr (xs : List JsVal)
  | obj (fields : List (String × JsVal))

/-- The number of UTF-16 code units of a character: what JS `"s".length`
counts. -/
def charUtf16Size (c : Char) : Nat :=
  if c.toNat < 0x10000 then 1 else 2

/-- JS string length (`s.length`): number of UTF-16 code units. -/
def jsStringLength (s : String) : Nat :=
  (s.data.map charUtf16Size).sum

/-- Property read `v[name]`, JS semantics: reading on `null`/`undefined`
throws a `TypeError` (`Except.error`); objects yield the field value or
`undefined`; arrays and strings expose `length`; other primitives have no own
properties, reads yield `undefined`. -/
def getProp (v : JsVal) (name : String) : Except Unit JsVal :=
  match v with
  | .null => .error ()
  | .undefined => .error ()
  | .obj fields =>
      .ok (match fields.lookup name with
           | some x => x
           | none => .undefined)
  | .arr xs => .ok (if name = "length" then .num xs.length else .undefined)
  | .str s => .ok (if name = "length" then .num (jsStringLength s) else .undefined)
  | _ => .ok .undefined

mutual

/-- Element conversion inside `Array.prototype.toString` (i.e. `join(",")`):
`null` and `undefined` become the empty string, others their JS string. -/
def jsElemToString : JsVal → String
  | .null => ""
  | .undefined => ""
  | .str s => s
  | .num n => toString n
  | .bool b => cond b "true" "false"
  | .obj _ => "[object Object]"
  | .arr xs => jsArrToString xs

/-- `Array.prototype.toString`: elements joined by commas. -/
def jsArrToString : List JsVal → String
  | [] => ""
  | v :: rest =>
      jsElemToString v ++ (match rest with | [] => "" | _ => ",") ++ jsArrToString rest

end

/-- JS `ToString` of a value, as performed by template-literal interpolation
`${v}`. -/
def jsToString : JsVal → String
  | .str s => s
  | .num n => toString n
  | .bool b => cond b "true" "false"
  | .null => "null"
  | .undefined => "undefined"
  | .obj _ => "[object Object]"
  | .arr xs => jsArrToString xs

/-- Content of `resultsDiv.innerHTML = "<p>Processing...</p>"`. -/
def processingHtml : String := "<p>Processing...</p>"

/-- The empty-state message written when `items.length === 0`. -/
def noItemsHtml : String := "<p>No action items found.</p>"

/-- The fixed error message written by the `catch` block. -/
def errorHtml : String :=
  "<p style='color:red;'>Cannot reach Flask server. Make sure it is running.</p>"

/-- The initial value of the accumulated `html` string: the table opening and
header row. -/
def tableHeader : String :=
  "<table><tr><th>Action</th><th>Assignee</th><th>Deadline</th></tr>"

/-- One iteration of the `items.forEach` callback: the template literal with
`item.action`, `item.assignee`, `item.deadline` interpolated (property reads
may throw).  Whitespace inside the template literal is kept verbatim from the
source. -/
def renderRow (item : JsVal) : Except Unit String := do
  let a ← getProp item "action"
  let b ← getProp item "assignee"
  let c ← getProp item "deadline"
  pure ("<tr>\n                        <td>" ++ jsToString a ++
        "</td>\n                        <td>" ++ jsToString b ++
        "</td>\n                        <td>" ++ jsToString c ++
        "</td>\n                     </tr>")

/-- The `items.forEach` loop accumulating `html +=` row by row; a throw in
the callback aborts the loop and propagates. -/
def renderRows : List JsVal → Except Unit String
  | [] => pure ""
  | item :: rest => do
      let r ← renderRow item
      let rs ← renderRows rest
      pure (r ++ rs)

/-- JS strict equality `v === 0`: true exactly when `v` is the number `0`
(`0 === -0` is true; no other value is strictly equal to a number). -/
def strictEqZero : JsVal → Bool
  | .num n => n = 0
  | _ => false

/-- The body of the `try` block after `const data = await response.json()`
succeeded: `data.items`, the `items.length === 0` test (JS strict equality),
then either the empty-state message or the table built by `forEach`.
Calling `forEach` on a non-array JSON value throws (`TypeError`: JSON values
are never functions). -/
def successHtml (data : JsVal) : Except Unit String := do
  let items ← getProp data "items"
  let len ← getProp items "length"
  if strictEqZero len then
    pure noItemsHtml
  else
    match items with
    | .arr xs => do
        let rows ← renderRows xs
        pure (tableHeader ++ rows ++ "</table>")
    | _ => .error ()

/-- Outcome of `await response.json()`: the parsed value, or a rejection
because the body is not valid JSON. -/
inductive BodyResult where
  | parsed (v : JsVal)
  | parseError

/-- Environment-chosen outcome of the `fetch` call: the promise rejects
(network-level failure), or a response arrives with `ok` status flag
(`response.ok` ⟺ status is 2xx) and a body. -/
inductive FetchOutcome where
  | networkError
  | response (ok : Bool) (body : BodyResult)

/-- Everything inside the `try` block that can throw, producing the string
finally assigned to `resultsDiv.innerHTML` on the success paths:
`if (!response.ok) throw new Error("Server error")`, the JSON parse, and the
rendering. -/
def tryBody (o : FetchOutcome) : Except Unit String :=
  match o with
  | .networkError => .error ()
  | .response ok body =>
      if !ok then .error ()
      else
        match body with
        | .parseError => .error ()
        | .parsed data => successHtml data

/-- The DOM state the script touches: the value of the `notes` field, the
`innerHTML` of the `results` div, and the (content of) every other element,
indexed by id. -/
structure Dom where
  notesValue : String
  resultsHtml : String
  rest : String → String

/-- Observable actions of one handler invocation, in order. -/
inductive Event where
  | readValue (elemId : String)
  | domWrite (elemId : String) (content : String)
  | fetchReq (url : String) (method : String) (contentType : String) (body : String)
  | consoleError
deriving DecidableEq

/-- The fixed endpoint of the `fetch` call. -/
def extractUrl : String := "http://127.0.0.1:5000/api/extract"

/-- Lowercase hex digit. -/
def hexDigit (n : Nat) : Char :=
  if n < 10 then Char.ofNat (48 + n) else Char.ofNat (87 + n)

/-- Four lowercase hex digits of a code unit, as in a JSON `\uXXXX` escape. -/
def hex4 (n : Nat) : List Char :=
  [hexDigit (n / 4096 % 16), hexDigit (n / 256 % 16), hexDigit (n / 16 % 16),
   hexDigit (n % 16)]

/-- Escaping of one string character by `JSON.stringify` (ECMA-262
`QuoteJSONString`): `"` and `\` get a backslash escape, the five control
characters with short escapes use them, other control characters become
`\u00XX`, everything else is copied verbatim. -/
def encodeJsonChar (c : Char) : List Char :=
  if c = '"' then ['\\', '"']
  else if c = '\\' then ['\\', '\\']
  else if c.toNat = 8 then ['\\', 'b']
  else if c.toNat = 9 then ['\\', 't']
  else if c.toNat = 10 then ['\\', 'n']
  else if c.toNat = 12 then ['\\', 'f']
  else if c.toNat = 13 then ['\\', 'r']
  else if c.toNat < 32 then '\\' :: 'u' :: hex4 c.toNat
  else [c]

/-- Escaping of a whole string body by `JSON.stringify` (without the
quotes). -/
def encodeChars (cs : List Char) : List Char :=
  (cs.map encodeJsonChar).flatten

/-- Encoding of a string by `JSON.stringify`: quoted, escaped. -/
def encodeJsonString (s : String) : String :=
  ⟨'"' :: encodeChars s.data ++ ['"']⟩

/-- Encoding `JSON.stringify({ notes })`: the request body sent by the
handler. -/
def stringifyNotes (notes : String) : String :=
  "\x7b\"notes\":" ++ encodeJsonString notes ++ "\x7d"

/-- One invocation of the click handler, as a function of the
environment-chosen fetch outcome and the DOM at click time.  Returns the DOM
after the invocation and the trace of observable actions.  Mirrors the
source: read `notes`, write the processing placeholder, `fetch`, then either
the final render or the `catch` block (log, write the fixed error). -/
def clickHandler (o : FetchOutcome) (d : Dom) : Dom × List Event :=
  let notes := d.notesValue
  let d1 : Dom := { d with resultsHtml := processingHtml }
  let pre : List Event :=
    [.readValue "notes", .domWrite "results" processingHtml,
     .fetchReq extractUrl "POST" "application/json" (stringifyNotes notes)]
  match tryBody o with
  | .ok html =>
      ({ d1 with resultsHtml := html }, pre ++ [.domWrite "results" html])
  | .error _ =>
      ({ d1 with resultsHtml := errorHtml },
       pre ++ [.consoleError, .domWrite "results" errorHtml])

/-- Value of a hex digit character, upper or lower case. -/
def hexVal (c : Char) : Option Nat :=
  if 48 ≤ c.toNat ∧ c.toNat ≤ 57 then some (c.toNat - 48)
  else if 97 ≤ c.toNat ∧ c.toNat ≤ 102 then some (c.toNat - 87)
  else if 65 ≤ c.toNat ∧ c.toNat ≤ 70 then some (c.toNat - 55)
  else none

/-- JSON string-literal body parser (RFC 8259 `char*`), reading characters
after the opening quote up to and including the closing quote; returns the
decoded characters and the remaining input.  Raw control characters are
rejected, escapes are decoded, `\uXXXX` escapes denoting surrogate halves are
rejected (Lean `Char` holds Unicode scalar values only; `JSON.stringify`
output for a Lean-representable string never contains them). -/
def decodeStrAux : (acc : List Char) → (l : List Char) → Option (List Char × List Char)
  | _, [] => none
  | acc, c :: rest =>
    if c = '"' then some (acc.reverse, rest)
    else if c = '\\' then
      match rest with
      | [] => none
      | e :: rest2 =>
        if e = '"' then decodeStrAux ('"' :: acc) rest2
        else if e = '\\' then decodeStrAux ('\\' :: acc) rest2
        else if e = '/' then decodeStrAux ('/' :: acc) rest2
        else if e = 'b' then decodeStrAux ('\x08' :: acc) rest2
        else if e = 'f' then decodeStrAux ('\x0c' :: acc) rest2
        else if e = 'n' then decodeStrAux ('\x0a' :: acc) rest2
        else if e = 'r' then decodeStrAux ('\x0d' :: acc) rest2
        else if e = 't' then decodeStrAux ('\x09' :: acc) rest2
        else if e = 'u' then
          match rest2 with
          | h1 :: h2 :: h3 :: h4 :: rest3 =>
            (match hexVal h1, hexVal h2, hexVal h3, hexVal h4 with
             | some a, some b, some c2, some d =>
               let n := a * 4096 + b * 256 + c2 * 16 + d
               if n < 0xD800 ∨ 0xDFFF < n then decodeStrAux (Char.ofNat n :: acc) rest3
               else none
             | _, _, _, _ => none)
          | _ => none
        else none
    else if c.toNat < 32 then none
    else decodeStrAux (c :: acc) rest

/-- The ten characters `{"notes":"` opening a canonical `{"notes": <string>}`
body. -/
def notesOpen : List Char := ['\x7b', '"', 'n', 'o', 't', 'e', 's', '"', ':', '"']

/-- JSON decoder for a body of the exact shape `{"notes": <string>}` (the
canonical form without interior whitespace, as `JSON.stringify` emits):
returns the decoded `notes` string, or `none` if the body is not such an
object. -/
def decodeNotesBody (body : String) : Option String :=
  if body.data.take 10 = notesOpen then
    match decodeStrAux [] (body.data.drop 10) with
    | some (cs, rest) => if rest = ['\x7d'] then some ⟨cs⟩ else none
    | none => none
  else none

/-- Selector for request events in a trace. -/
def isFetchEvent : Event → Bool
  | .fetchReq _ _ _ _ => true
  | _ => false

/-- Selector for element-value reads in a trace. -/
def isReadEvent : Event → Bool
  | .readValue _ => true
  | _ => false

/-- The three failure kinds named by the spec: network-level failure,
non-2xx status, body that fails to parse as JSON. -/
def isFailureOutcome : FetchOutcome → Bool
  | .networkError => true
  | .response ok body =>
      !ok || (match body with | .parseError => true | .parsed _ => false)

/-- An `ActionItem` of the documented response shape: an object with
`action`/`assignee`/`deadline` string fields. -/
def actionItem (action assignee deadline : String) : JsVal :=
  .obj [("action", .str action), ("assignee", .str assignee),
        ("deadline", .str deadline)]

/-- Expected data row, per the spec: one `<tr>` whose three cells carry the
item's `action`, `assignee` and `deadline` values verbatim, in that column
order (whitespace as emitted by the template literal). -/
def specRowHtml (action assignee deadline : String) : String :=
  "<tr>\n                        <td>" ++ action ++
  "</td>\n                        <td>" ++ assignee ++
  "</td>\n                        <td>" ++ deadline ++
  "</td>\n                     </tr>"

/-- Expected data rows: one per item, in response order. -/
def specRowsHtml : List (String × String × String) → String
  | [] => ""
  | r :: rs => specRowHtml r.1 r.2.1 r.2.2 ++ specRowsHtml rs

/-- Expected table, per the spec: header row Action/Assignee/Deadline
followed by the data rows, in order. -/
def specTableHtml (rows : List (String × String × String)) : String :=
  tableHeader ++ specRowsHtml rows ++ "</table>"

/-- Whether `p` is an initial segment of `s` (character lists). -/
def listStarts : List Char → List Char → Bool
  | [], _ => true
  | _ :: _, [] => false
  | p :: ps, c :: cs => p = c && listStarts ps cs

/-- Whether `p` occurs as a contiguous substring of `s` (character lists). -/
def listContains (p : List Char) : List Char → Bool
  | [] => listStarts p []
  | c :: rest => listStarts p (c :: rest) || listContains p rest

/-- A sample DOM used to instantiate closed statements. -/
def sampleDom : Dom :=
  { notesValue := "standup notes", resultsHtml := "", rest := fun _ => "" }

theorem hexVal_hexDigit : ∀ x < 16, hexVal (hexDigit x) = some x := by decide

theorem decodeStrAux_encodeJsonChar (c : Char) (acc rest : List Char) :
    decodeStrAux acc (encodeJsonChar c ++ rest) = decodeStrAux (c :: acc) rest := by
  rw [encodeJsonChar]
  split_ifs with h1 h2 h3 h4 h5 h6 h7 h8
  · subst h1; rw [decodeStrAux.eq_def]; simp
  · subst h2; rw [decodeStrAux.eq_def]; simp
  · have hc : ('\x08' : Char) = c := by
      rw [show ('\x08' : Char) = Char.ofNat 8 from rfl, ← h3, Char.ofNat_toNat]
    rw [decodeStrAux.eq_def]; simp; rw [hc]
  · have hc : ('\x09' : Char) = c := by
      rw [show ('\x09' : Char) = Char.ofNat 9 from rfl, ← h4, Char.ofNat_toNat]
    rw [decodeStrAux.eq_def]; simp; rw [hc]
  · have hc : ('\x0a' : Char) = c := by
      rw [show ('\x0a' : Char) = Char.ofNat 10 from rfl, ← h5, Char.ofNat_toNat]
    rw [decodeStrAux.eq_def]; simp; rw [hc]
  · have hc : ('\x0c' : Char) = c := by
      rw [show ('\x0c' : Char) = Char.ofNat 12 from rfl, ← h6, Char.ofNat_toNat]
    rw [decodeStrAux.eq_def]; simp; rw [hc]
  · have hc : ('\x0d' : Char) = c := by
      rw [show ('\x0d' : Char) = Char.ofNat 13 from rfl, ← h7, Char.ofNat_toNat]
    rw [decodeStrAux.eq_def]; simp; rw [hc]
  · have hv1 : hexVal (hexDigit (c.toNat / 4096 % 16)) = some (c.toNat / 4096 % 16) :=
      hexVal_hexDigit _ (Nat.mod_lt _ (by norm_num))
    have hv2 : hexVal (hexDigit (c.toNat / 256 % 16)) = some (c.toNat / 256 % 16) :=
      hexVal_hexDigit _ (Nat.mod_lt _ (by norm_num))
    have hv3 : hexVal (hexDigit (c.toNat / 16 % 16)) = some (c.toNat / 16 % 16) :=
      hexVal_hexDigit _ (Nat.mod_lt _ (by norm_num))
    have hv4 : hexVal (hexDigit (c.toNat % 16)) = some (c.toNat % 16) :=
      hexVal_hexDigit _ (Nat.mod_lt _ (by norm_num))
    have hn : c.toNat / 4096 % 16 * 4096 + c.toNat / 256 % 16 * 256 +
        c.toNat / 16 % 16 * 16 + c.toNat % 16 = c.toNat := by omega
    have hlt : c.toNat < 0xD800 := by omega
    rw [hex4]
    rw [decodeStrAux.eq_def]
    simp only [List.cons_append, List.nil_append]
    simp [hv1, hv2, hv3, hv4, hn, hlt, Char.ofNat_toNat]
  · rw [decodeStrAux.eq_def]; simp [h1, h2, h8]

theorem decodeStrAux_encodeChars (cs : List Char) (acc k : List Char) :
    decodeStrAux acc (encodeChars cs ++ '"' :: k) = some (acc.reverse ++ cs, k) := by
  induction cs generalizing acc with
  | nil =>
      rw [encodeChars]
      simp only [List.map_nil, List.flatten_nil, List.nil_append]
      rw [decodeStrAux.eq_def]; simp
  | cons c cs ih =>
      rw [encodeChars]
      simp only [List.map_cons, List.flatten_cons, List.append_assoc]
      rw [show (cs.map encodeJsonChar).flatten = encodeChars cs from rfl]
      rw [decodeStrAux_encodeJsonChar, ih]
      simp

theorem decode_stringifyNotes (s : String) :
    decodeNotesBody (stringifyNotes s) = some s := by
  cases s with
  | mk cs =>
    have hdata : (stringifyNotes ⟨cs⟩).data =
        notesOpen ++ (encodeChars cs ++ '"' :: ['\x7d']) := by
      rw [stringifyNotes, encodeJsonString]
      simp [String.data_append, notesOpen]
    have hlen : notesOpen.length = 10 := rfl
    rw [decodeNotesBody, hdata]
    rw [List.take_left' hlen, List.drop_left' hlen]
    rw [if_pos rfl, decodeStrAux_encodeChars]
    simp

theorem clickHandler_ok (o : FetchOutcome) (d : Dom) (html : String)
    (h : tryBody o = .ok html) :
    clickHandler o d =
      ({ d with resultsHtml := html },
       [.readValue "notes", .domWrite "results" processingHtml,
        .fetchReq extractUrl "POST" "application/json" (stringifyNotes d.notesValue),
        .domWrite "results" html]) := by
  simp [clickHandler, h]

theorem clickHandler_err (o : FetchOutcome) (d : Dom)
    (h : tryBody o = .error ()) :
    clickHandler o d =
      ({ d with resultsHtml := errorHtml },
       [.readValue "notes", .domWrite "results" processingHtml,
        .fetchReq extractUrl "POST" "application/json" (stringifyNotes d.notesValue),
        .consoleError, .domWrite "results" errorHtml]) := by
  simp [clickHandler, h]

theorem tryBody_of_failure (o : FetchOutcome) (h : isFailureOutcome o = true) :
    tryBody o = .error () := by
  cases o with
  | networkError => rfl
  | response ok body =>
      cases ok with
      | false => rfl
      | true =>
          cases body with
          | parseError => rfl
          | parsed v => simp [isFailureOutcome] at h

/-- C1: on each of the three failure kinds (network-level failure, non-2xx
status, body that fails to parse as JSON) the handler logs to the diagnostic
channel and then sets the results region to the one fixed styled error
message; the outcome — DOM and trace — is literally the same for all three
kinds and is independent of the failure kind. -/
theorem failure_collapses_to_fixed_error (o : FetchOutcome) (d : Dom)
    (h : isFailureOutcome o = true) :
    clickHandler o d =
      ({ d with resultsHtml := errorHtml },
       [.readValue "notes", .domWrite "results" processingHtml,
        .fetchReq extractUrl "POST" "application/json" (stringifyNotes d.notesValue),
        .consoleError, .domWrite "results" errorHtml]) :=
  clickHandler_err o d (tryBody_of_failure o h)

theorem failure_collapses_to_fixed_error_witness :
    isFailureOutcome .networkError = true ∧
    clickHandler .networkError sampleDom =
      ({ sampleDom with resultsHtml := errorHtml },
       [.readValue "notes", .domWrite "results" processingHtml,
        .fetchReq extractUrl "POST" "application/json" (stringifyNotes sampleDom.notesValue),
        .consoleError, .domWrite "results" errorHtml]) :=
  ⟨rfl, failure_collapses_to_fixed_error .networkError sampleDom rfl⟩

/-- C5: every activation issues exactly one request event; it is a POST to
the fixed URL with the JSON content type, and its body decodes (as JSON)
back to the object with the single field `notes` holding the text field's
value at click time. -/
theorem single_post_request_roundtrip (o : FetchOutcome) (d : Dom) :
    (clickHandler o d).2.filter (fun e => isFetchEvent e) =
      [.fetchReq extractUrl "POST" "application/json" (stringifyNotes d.notesValue)] ∧
    decodeNotesBody (stringifyNotes d.notesValue) = some d.notesValue := by
  constructor
  · rcases h : tryBody o with e | html
    · rw [clickHandler_err o d (by rw [h])]
      simp [isFetchEvent]
    · rw [clickHandler_ok o d html h]
      simp [isFetchEvent]
  · exact decode_stringifyNotes d.notesValue

/-- C6: on every activation, the trace starts with the read of the notes
field and the write of the processing placeholder to the results region,
strictly before the outbound request; the remaining events follow. -/
theorem processing_written_before_request (o : FetchOutcome) (d : Dom) :
    ∃ t, (clickHandler o d).2 =
      .readValue "notes" :: .domWrite "results" processingHtml ::
      .fetchReq extractUrl "POST" "application/json" (stringifyNotes d.notesValue) :: t := by
  rcases h : tryBody o with e | html
  · rw [clickHandler_err o d (by rw [h])]
    exact ⟨_, rfl⟩
  · rw [clickHandler_ok o d html h]
    exact ⟨_, rfl⟩

/-- C7: a second activation with the same notes value and the same server
outcome renders the same final results content and produces the same trace:
the handler carries no state between invocations. -/
theorem second_activation_same_render (o : FetchOutcome) (d : Dom) :
    (clickHandler o (clickHandler o d).1).1.resultsHtml =
      (clickHandler o d).1.resultsHtml ∧
    (clickHandler o (clickHandler o d).1).2 = (clickHandler o d).2 := by
  rcases h : tryBody o with e | html
  · rw [clickHandler_err o d (by rw [h])]
    rw [clickHandler_err o _ (by rw [h])]
    exact ⟨rfl, rfl⟩
  · rw [clickHandler_ok o d html h]
    rw [clickHandler_ok o _ html h]
    exact ⟨rfl, rfl⟩

theorem renderRow_actionItem (a b c : String) :
    renderRow (actionItem a b c) = .ok (specRowHtml a b c) := rfl

theorem renderRows_actionItems (rows : List (String × String × String)) :
    renderRows (rows.map fun r => actionItem r.1 r.2.1 r.2.2) =
      .ok (specRowsHtml rows) := by
  induction rows with
  | nil => rfl
  | cons r rs ih =>
      simp only [List.map_cons]
      rw [renderRows, renderRow_actionItem, ih]
      rfl

/-- C3: a 2xx response parsing to JSON whose `items` field is the empty
array makes the results region's final content exactly the literal
empty-state paragraph, and that content contains no table element. -/
theorem empty_items_renders_empty_state (d : Dom) (data : JsVal)
    (h : getProp data "items" = .ok (.arr [])) :
    (clickHandler (.response true (.parsed data)) d).1.resultsHtml =
      "<p>No action items found.</p>" ∧
    listContains "<table".data
      (clickHandler (.response true (.parsed data)) d).1.resultsHtml.data = false := by
  have hs : successHtml data = .ok noItemsHtml := by
    rw [successHtml, h]
    rfl
  have ht : tryBody (.response true (.parsed data)) = .ok noItemsHtml := hs
  rw [clickHandler_ok _ d noItemsHtml ht]
  constructor
  · rfl
  · show listContains "<table".data noItemsHtml.data = false
    decide

theorem empty_items_renders_empty_state_witness :
    getProp (.obj [("items", .arr [])]) "items" = .ok (.arr []) ∧
    ((clickHandler (.response true (.parsed (.obj [("items", .arr [])]))) sampleDom).1.resultsHtml =
      "<p>No action items found.</p>" ∧
    listContains "<table".data
      (clickHandler (.response true (.parsed (.obj [("items", .arr [])]))) sampleDom).1.resultsHtml.data = false) :=
  ⟨rfl, empty_items_renders_empty_state sampleDom (.obj [("items", .arr [])]) rfl⟩

/-- C4: a 2xx response parsing to JSON whose `items` is a non-empty array of
objects with `action`/`assignee`/`deadline` string fields renders the table:
the fixed header row followed by one data row per item, in response order,
the three values inserted verbatim in the column order
action/assignee/deadline. -/
theorem nonempty_items_render_table (d : Dom)
    (rows : List (String × String × String)) (h : rows ≠ []) :
    (clickHandler (.response true (.parsed (.obj [("items",
        .arr (rows.map fun r => actionItem r.1 r.2.1 r.2.2))]))) d).1.resultsHtml =
      specTableHtml rows := by
  set l := rows.map fun r => actionItem r.1 r.2.1 r.2.2 with hl
  have hnz : ¬ (strictEqZero (.num (l.length : Int)) = true) := by
    rw [hl]
    simp [strictEqZero, List.length_eq_zero, h]
  have hstep : successHtml (.obj [("items", .arr l)]) =
      (if strictEqZero (.num (l.length : Int)) then pure noItemsHtml
       else do
         let rws ← renderRows l
         pure (tableHeader ++ rws ++ "</table>")) := rfl
  have hs : successHtml (.obj [("items", .arr l)]) = .ok (specTableHtml rows) := by
    rw [hstep, if_neg hnz, hl, renderRows_actionItems]
    rfl
  have ht : tryBody (.response true (.parsed (.obj [("items", .arr l)]))) =
      .ok (specTableHtml rows) := hs
  rw [clickHandler_ok _ d _ ht]

theorem nonempty_items_render_table_witness :
    ([("Ship report", "Alice", "2024-01-01")] : List (String × String × String)) ≠ [] ∧
    (clickHandler (.response true (.parsed (.obj [("items",
        .arr ([("Ship report", "Alice", "2024-01-01")].map fun r => actionItem r.1 r.2.1 r.2.2))]))) sampleDom).1.resultsHtml =
      specTableHtml [("Ship report", "Alice", "2024-01-01")] :=
  ⟨by decide, nonempty_items_render_table sampleDom [("Ship report", "Alice", "2024-01-01")] (by decide)⟩

theorem bindErr {α β : Type} (f : α → Except Unit β) :
    (Except.error () >>= f) = Except.error () := rfl

theorem bindOk {α β : Type} (a : α) (f : α → Except Unit β) :
    (Except.ok a >>= f) = f a := rfl

theorem successHtml_shape (data : JsVal) (html : String)
    (h : successHtml data = .ok html) :
    html = noItemsHtml ∨ ∃ r, html = tableHeader ++ r ++ "</table>" := by
  rw [successHtml] at h
  rcases h1 : getProp data "items" with e | items <;> rw [h1] at h
  · exact Except.noConfusion (bindErr _ ▸ h)
  · rw [bindOk] at h
    rcases h2 : getProp items "length" with e2 | len <;> rw [h2] at h
    · exact Except.noConfusion (bindErr _ ▸ h)
    · rw [bindOk] at h
      by_cases hz : strictEqZero len = true
      · rw [if_pos hz] at h
        left
        exact (Except.ok.inj h).symm
      · rw [if_neg hz] at h
        cases items with
        | arr xs =>
            replace h : (do
                let rws ← renderRows xs
                pure (tableHeader ++ rws ++ "</table>") : Except Unit String) =
              Except.ok html := h
            rcases h3 : renderRows xs with e3 | rws <;> rw [h3] at h
            · exact Except.noConfusion (bindErr _ ▸ h)
            · rw [bindOk] at h
              right
              exact ⟨rws, (Except.ok.inj h).symm⟩
        | str s =>
            exact Except.noConfusion (h : (Except.error () : Except Unit String) = _)
        | num n =>
            exact Except.noConfusion (h : (Except.error () : Except Unit String) = _)
        | bool b =>
            exact Except.noConfusion (h : (Except.error () : Except Unit String) = _)
        | null =>
            exact Except.noConfusion (h : (Except.error () : Except Unit String) = _)
        | undefined =>
            exact Except.noConfusion (h : (Except.error () : Except Unit String) = _)
        | obj fields =>
            exact Except.noConfusion (h : (Except.error () : Except Unit String) = _)

/-- C8: the empty string is a legal notes value: with an empty text field the
handler performs no validation, still sends the request whose body is the
JSON encoding of the empty-notes object, and then processes the server's
response exactly as it would for any other field value (the final rendered
content is the same function of the outcome, independent of the notes). -/
theorem empty_notes_still_sent (o : FetchOutcome) (d : Dom)
    (h : d.notesValue = "") :
    (∃ t, (clickHandler o d).2 =
      .readValue "notes" :: .domWrite "results" processingHtml ::
      .fetchReq extractUrl "POST" "application/json" "\x7b\"notes\":\"\"\x7d" :: t) ∧
    ∀ d' : Dom, (clickHandler o d').1.resultsHtml = (clickHandler o d).1.resultsHtml := by
  have hb : stringifyNotes d.notesValue = "\x7b\"notes\":\"\"\x7d" := by rw [h]; rfl
  constructor
  · rcases ht : tryBody o with e | html
    · rw [clickHandler_err o d (by rw [ht]), hb]
      exact ⟨_, rfl⟩
    · rw [clickHandler_ok o d html ht, hb]
      exact ⟨_, rfl⟩
  · intro d'
    rcases ht : tryBody o with e | html
    · rw [clickHandler_err o d (by rw [ht]), clickHandler_err o d' (by rw [ht])]
    · rw [clickHandler_ok o d html ht, clickHandler_ok o d' html ht]

theorem empty_notes_still_sent_witness :
    ({ sampleDom with notesValue := "" } : Dom).notesValue = "" ∧
    ((∃ t, (clickHandler .networkError { sampleDom with notesValue := "" }).2 =
      .readValue "notes" :: .domWrite "results" processingHtml ::
      .fetchReq extractUrl "POST" "application/json" "\x7b\"notes\":\"\"\x7d" :: t) ∧
    ∀ d' : Dom, (clickHandler .networkError d').1.resultsHtml =
      (clickHandler .networkError { sampleDom with notesValue := "" }).1.resultsHtml) :=
  ⟨rfl, empty_notes_still_sent .networkError { sampleDom with notesValue := "" } rfl⟩

/-- C9: no invocation escapes the catch block: every invocation terminates
with the results region holding the fixed error message, the empty-state
message, or a rendered table (header plus rows). -/
theorem handler_always_terminates_rendered_or_error (o : FetchOutcome) (d : Dom) :
    (clickHandler o d).1.resultsHtml = errorHtml ∨
    (clickHandler o d).1.resultsHtml = noItemsHtml ∨
    ∃ r, (clickHandler o d).1.resultsHtml = tableHeader ++ r ++ "</table>" := by
  rcases ht : tryBody o with e | html
  · left
    rw [clickHandler_err o d (by rw [ht])]
  · have hshape : html = noItemsHtml ∨ ∃ r, html = tableHeader ++ r ++ "</table>" := by
      cases o with
      | networkError => exact Except.noConfusion ht
      | response ok body =>
          cases ok with
          | false => exact Except.noConfusion ht
          | true =>
              cases body with
              | parseError => exact Except.noConfusion ht
              | parsed data => exact successHtml_shape data html ht
    rw [clickHandler_ok o d html ht]
    rcases hshape with hh | ⟨r, hh⟩
    · right; left; exact hh
    · right; right; exact ⟨r, hh⟩

/-- C10: the handler writes only the results region: the notes field's value
and every other element are unchanged on all paths, the only element-value
read in the trace is the single read of the notes field, it happens first
(at activation time), and every DOM write in the trace targets the results
region. -/
theorem writes_only_results_region (o : FetchOutcome) (d : Dom) :
    (clickHandler o d).1.notesValue = d.notesValue ∧
    (clickHandler o d).1.rest = d.rest ∧
    (clickHandler o d).2.filter (fun e => isReadEvent e) = [.readValue "notes"] ∧
    (clickHandler o d).2.head? = some (.readValue "notes") ∧
    ∀ i c, Event.domWrite i c ∈ (clickHandler o d).2 → i = "results" := by
  rcases ht : tryBody o with e | html
  · rw [clickHandler_err o d (by rw [ht])]
    refine ⟨rfl, rfl, by simp [isReadEvent], rfl, ?_⟩
    intro i c hmem
    simp at hmem
    rcases hmem with ⟨hi, _⟩ | ⟨hi, _⟩ <;> exact hi
  · rw [clickHandler_ok o d html ht]
    refine ⟨rfl, rfl, by simp [isReadEvent], rfl, ?_⟩
    intro i c hmem
    simp at hmem
    rcases hmem with ⟨hi, _⟩ | ⟨hi, _⟩ <;> exact hi

/-- C2 is refuted by the code: a 2xx response whose body parses as JSON but
lacks the expected shape (`items` is the string `""`, not an array of
objects) does not take the failure path: the handler renders the empty-state
message, not the fixed error message, and logs nothing. -/
theorem malformed_items_not_error_cx :
    (clickHandler (.response true (.parsed (.obj [("items", .str "")]))) sampleDom).1.resultsHtml
      = "<p>No action items found.</p>" ∧
    (clickHandler (.response true (.parsed (.obj [("items", .str "")]))) sampleDom).1.resultsHtml
      ≠ errorHtml ∧
    Event.consoleError ∉
      (clickHandler (.response true (.parsed (.obj [("items", .str "")]))) sampleDom).2 :=
  ⟨rfl, by decide, by decide⟩

/-- C2 (amended): a 2xx response whose body parses as JSON but whose `items`
field is missing or `null` (so that reading `items.length` throws) takes the
failure path: the handler logs the error and sets the results region to the
fixed error message.  (Other shape deviations are not all caught: a
non-array `items` whose `length` is `0` renders the empty-state message, and
an array of non-objects renders a table.) -/
theorem missing_or_null_items_take_failure_path (d : Dom) (data : JsVal)
    (h : getProp data "items" = .error () ∨ getProp data "items" = .ok .null ∨
         getProp data "items" = .ok .undefined) :
    clickHandler (.response true (.parsed data)) d =
      ({ d with resultsHtml := errorHtml },
       [.readValue "notes", .domWrite "results" processingHtml,
        .fetchReq extractUrl "POST" "application/json" (stringifyNotes d.notesValue),
        .consoleError, .domWrite "results" errorHtml]) := by
  have hs : successHtml data = .error () := by
    rcases h with h | h | h <;> rw [successHtml, h] <;> rfl
  exact clickHandler_err _ d hs

theorem missing_or_null_items_take_failure_path_witness :
    (getProp (.obj []) "items" = .error () ∨ getProp (.obj []) "items" = .ok .null ∨
     getProp (.obj []) "items" = .ok .undefined) ∧
    clickHandler (.response true (.parsed (.obj []))) sampleDom =
      ({ sampleDom with resultsHtml := errorHtml },
       [.readValue "notes", .domWrite "results" processingHtml,
        .fetchReq extractUrl "POST" "application/json" (stringifyNotes sampleDom.notesValue),
        .consoleError, .domWrite "results" errorHtml]) :=
  ⟨Or.inr (Or.inr rfl),
   missing_or_null_items_take_failure_path sampleDom (.obj []) (Or.inr (Or.inr rfl))⟩
